/-
Verification of the filter-expression core of the kibana-nested-tree repository.

The development shallowly embeds three cooperating implementations:
- the expression-tree service FilterStateService (tree mutator, tree compiler,
  tree preview renderer);
- the flat filter-row compiler and preview renderer of KibanaFilterBarComponent;
- the backend flat compiler buildElasticsearchQuery of elasticFilterService.js.

JavaScript scalar values are modelled by the inductive type Value (strings,
numbers as rationals, null, undefined, arrays); query documents by the
inductive type Doc whose constructors are exactly the clause shapes the three
compilers emit. JavaScript string operations are re-implemented on the
character lists underlying Lean strings so that every definition evaluates
inside the kernel.
-/
import Mathlib

set_option maxHeartbeats 1000000
set_option maxRecDepth 4000

/-- Character-list implementation of the JavaScript String.prototype.endsWith
test used by the sources as field.endsWith of the keyword suffix. -/
def strEndsWith (s suffix : String) : Bool :=
  suffix.data.isSuffixOf s.data

/-- Character-list implementation of the JavaScript String.prototype.includes
test, used by isDateField in the flat compiler. -/
def strIncludes (s sub : String) : Bool :=
  s.data.tails.any (fun t => sub.data.isPrefixOf t)

/-- Character-list implementation of String.prototype.toLowerCase. -/
def lowerStr (s : String) : String :=
  ⟨s.data.map Char.toLower⟩

/-- Character-list implementation of String.prototype.trim. -/
def trimStr (s : String) : String :=
  ⟨((s.data.dropWhile Char.isWhitespace).reverse.dropWhile Char.isWhitespace).reverse⟩

/-- Helper for splitChar: accumulates the current piece (reversed). -/
def splitCharAux (c : Char) : List Char → List Char → List String
  | [], acc => [⟨acc.reverse⟩]
  | x :: rest, acc =>
    if x = c then ⟨acc.reverse⟩ :: splitCharAux c rest []
    else splitCharAux c rest (x :: acc)

/-- Character-list implementation of String.prototype.split with a one-character
separator, as in value.split of a comma in all three compilers. -/
def splitChar (c : Char) (s : String) : List String :=
  splitCharAux c s.data []

/-- Joins a list of strings with a separator; implements Array.prototype.join. -/
def joinPieces : List String → String → String
  | [], _ => ""
  | [s], _ => s
  | s :: rest, sep => s ++ sep ++ joinPieces rest sep

/-- Tests the numeric pattern of the sources, the regular expression
caret dash-opt digits-plus dot-digits-plus-opt dollar, on a character list. -/
def numericChars (cs : List Char) : Bool :=
  let cs2 := match cs with
    | '-' :: rest => rest
    | other => other
  let ds := cs2.takeWhile Char.isDigit
  let rest := cs2.dropWhile Char.isDigit
  !ds.isEmpty &&
    (match rest with
     | [] => true
     | '.' :: fs => !fs.isEmpty && fs.all Char.isDigit
     | _ => false)

/-- Numeric value of a decimal digit character. -/
def digitVal (c : Char) : Nat := c.toNat - '0'.toNat

/-- Reads a block of decimal digits as a natural number. -/
def digitsToNat (cs : List Char) : Nat :=
  cs.foldl (fun acc c => 10 * acc + digitVal c) 0

/-- Models JavaScript parseFloat on strings matching the numeric pattern of
numericChars; the sources only ever call parseFloat on such strings. -/
def parseNumeric (s : String) : Rat :=
  let p := match s.data with
    | '-' :: rest => (true, rest)
    | other => (false, other)
  let ip := p.2.takeWhile Char.isDigit
  let rest := p.2.dropWhile Char.isDigit
  let q : Rat :=
    match rest with
    | '.' :: fs => (digitsToNat ip : Rat) + mkRat (digitsToNat fs) (10 ^ fs.length)
    | _ => (digitsToNat ip : Rat)
  if p.1 then -q else q

/-- JavaScript scalar or array value as it flows through the filter rows:
a string, a number (modelled as a rational), null, undefined, or an array. -/
inductive Value where
  | vStr (s : String)
  | vNum (q : Rat)
  | vNull
  | vUndef
  | vArr (elems : List Value)

/-- JavaScript truthiness of a Value: empty strings, the number zero, null and
undefined are falsy; arrays are objects and hence truthy. -/
def truthyV : Value → Bool
  | .vStr s => !(s = "")
  | .vNum q => !(q = 0)
  | .vNull => false
  | .vUndef => false
  | .vArr _ => true

/-- Decimal rendering of a rational; integers render as in JavaScript. The
fractional case is never evaluated by any theorem below. -/
def ratToString (q : Rat) : String :=
  if q.den = 1 then toString q.num else toString q.num ++ "/" ++ toString q.den

mutual
/-- JavaScript string conversion of a Value, as performed by template literals
in the sources; arrays join their elements with commas. -/
def valueToString : Value → String
  | .vStr s => s
  | .vNum q => ratToString q
  | .vNull => "null"
  | .vUndef => "undefined"
  | .vArr elems => valueListToString elems
/-- String conversion of an array value: elements joined by commas. -/
def valueListToString : List Value → String
  | [] => ""
  | [v] => valueToString v
  | v :: rest => valueToString v ++ "," ++ valueListToString rest
end

/-- Models the JavaScript expression s-logical-or-d for strings: the default d
is taken exactly when s is the empty (falsy) string. -/
def orDefault (s d : String) : String :=
  if s = "" then d else s

/-- Models the JavaScript expression v-logical-or-d for values: the default d
is taken exactly when v is falsy. -/
def orValue (v d : Value) : Value :=
  if truthyV v then v else d

/-- JavaScript object-key assignment on an association list: replaces the value
in place if the key is present, appends the pair otherwise. -/
def objInsert : List (String × Value) → String → Value → List (String × Value)
  | [], k, v => [(k, v)]
  | (k2, v2) :: rest, k, v =>
    if k2 = k then (k, v) :: rest else (k2, v2) :: objInsert rest k v

/-- Boolean relation of a BooleanNode, the TypeScript union of the two string
literals AND and OR. -/
inductive BoolRel where
  | AND
  | OR
deriving DecidableEq

/-- String form of a relation, used when previews join child renderings. -/
def BoolRel.str : BoolRel → String
  | .AND => "AND"
  | .OR => "OR"

/-- Elasticsearch query documents: one constructor per clause shape the three
compilers emit. The constructor queryW is the object with the single top-level
key named query; boolEmpty is a bool clause with no sub-keys. -/
inductive Doc where
  | matchAll
  | term (field : String) (v : Value)
  | matchQ (field : String) (v : Value)
  | terms (field : String) (vs : List Value)
  | existsQ (field : String)
  | rangeQ (field : String) (bounds : List (String × Value))
  | prefixQ (field : String) (v : Value)
  | wildcardQ (field : String) (v : Value) (caseInsensitive : Bool)
  | queryStringQ (field : String) (v : Value)
  | boolMust (clauses : List Doc)
  | boolShould (clauses : List Doc) (minimumShouldMatch : Nat)
  | boolMustNot (clauses : List Doc)
  | boolEmpty
  | queryW (q : Doc)

/-- Translation of isEmptyQuery of FilterStateService: the query is the
match_all object with its single key. -/
def isEmptyQuery : Doc → Bool
  | .matchAll => true
  | _ => false

/-- Holds exactly for documents whose top-level key is bool. -/
def isBoolDoc : Doc → Bool
  | .boolMust _ => true
  | .boolShould _ _ => true
  | .boolMustNot _ => true
  | .boolEmpty => true
  | _ => false

/-- Leaf of the filter tree, the FilterCondition interface of filter.model.ts
as totalised by initializeWithFilter (every field present, string fields
defaulting to the empty string). -/
structure FilterCondition where
  id : String
  field : String
  operator : String
  value : Value
  minOperator : String
  minValue : Value
  maxOperator : String
  maxValue : Value

/-- FilterNode of filter.model.ts: a FilterCondition leaf or a BooleanNode
carrying an id, a relation, and an ordered list of children. -/
inductive FilterNode where
  | cond (c : FilterCondition)
  | group (gid : String) (rel : BoolRel) (children : List FilterNode)

/-- Identifier of a node, condition or group. -/
def FilterNode.nodeId : FilterNode → String
  | .cond c => c.id
  | .group gid _ _ => gid

/-- FilterTree of filter.model.ts: an optional root node and a tree id. -/
structure FilterTree where
  root : Option FilterNode
  id : String

/-- Induction over FilterNode that provides the hypothesis for every member of
a group's children list. -/
theorem FilterNode.inductionOn (P : FilterNode → Prop)
    (h1 : ∀ c, P (.cond c))
    (h2 : ∀ gid rel children, (∀ ch, ch ∈ children → P ch) → P (.group gid rel children)) :
    ∀ n, P n
  | .cond c => h1 c
  | .group gid rel children =>
    h2 gid rel children (fun ch hch => FilterNode.inductionOn P h1 h2 ch)
termination_by n => sizeOf n
decreasing_by
  have := List.sizeOf_lt_of_mem hch
  simp only [FilterNode.group.sizeOf_spec]
  omega

/-- Partial FilterCondition as passed to addFilter and initializeWithFilter of
FilterStateService; string fields absent in the source partial are modelled as
the empty string, absent values as vUndef. -/
structure CondInput where
  field : String
  operator : String
  value : Value
  minOperator : String
  minValue : Value
  maxOperator : String
  maxValue : Value

/-- Condition construction shared by initializeWithFilter and addFilter of
FilterStateService: a fresh id, field and operator defaulted to the empty
string (the identity on total strings), value defaulted to the empty string
when falsy, range operators defaulted to gt and lt. -/
def mkNewCondition (newId : String) (f : CondInput) : FilterCondition :=
  { id := newId
    field := f.field
    operator := f.operator
    value := orValue f.value (.vStr "")
    minOperator := orDefault f.minOperator "gt"
    minValue := orValue f.minValue (.vStr "")
    maxOperator := orDefault f.maxOperator "lt"
    maxValue := orValue f.maxValue (.vStr "") }

mutual
/-- Translation of addFilterRecursive of FilterStateService. The fresh id the
source draws from generateId for a newly created wrapper group is passed in as
newGroupId. On the node whose id matches: a condition is wrapped together with
the new filter in a group of the requested relation; a group with the same
relation receives the new filter as an additional child; a group with a
different relation is wrapped whole, together with the new filter, in a new
outer group of the requested relation. Elsewhere the children are mapped. -/
def addFilterRecursive : FilterNode → String → BoolRel → FilterCondition → String → FilterNode
  | .cond c, parentNodeId, rel, newFilter, newGroupId =>
    if c.id = parentNodeId then .group newGroupId rel [.cond c, .cond newFilter]
    else .cond c
  | .group gid grel children, parentNodeId, rel, newFilter, newGroupId =>
    if gid = parentNodeId then
      if grel = rel then .group gid grel (children ++ [.cond newFilter])
      else .group newGroupId rel [.group gid grel children, .cond newFilter]
    else .group gid grel (addChildren children parentNodeId rel newFilter newGroupId)
/-- Children map of addFilterRecursive. -/
def addChildren : List FilterNode → String → BoolRel → FilterCondition → String → List FilterNode
  | [], _, _, _, _ => []
  | ch :: rest, p, r, f, g =>
    addFilterRecursive ch p r f g :: addChildren rest p r f g
end

/-- Translation of addFilter of FilterStateService. With no root the tree is
replaced by initializeWithFilter (fresh condition id and fresh tree id);
otherwise the new condition is inserted by addFilterRecursive and the tree id
is kept. The three ids the source draws from generateId are explicit
parameters. -/
def addFilter (t : FilterTree) (parentNodeId : String) (rel : BoolRel) (f : CondInput)
    (newCondId newGroupId newTreeId : String) : FilterTree :=
  match t.root with
  | none => { root := some (.cond (mkNewCondition newCondId f)), id := newTreeId }
  | some r =>
    { root := some (addFilterRecursive r parentNodeId rel (mkNewCondition newCondId f) newGroupId)
      id := t.id }

mutual
/-- Translation of removeFilterRecursive of FilterStateService. A group maps
the removal over its children, drops null results, returns null when no child
survives and the sole child when exactly one survives; the id test that
returns null is reached only by condition nodes, exactly as in the source
where the boolean-node branch returns first. -/
def removeFilterRecursive : FilterNode → String → Option FilterNode
  | .group gid rel children, nodeId =>
    match removeChildren children nodeId with
    | [] => none
    | [c] => some c
    | a :: b :: rest => some (.group gid rel (a :: b :: rest))
  | .cond c, nodeId =>
    if c.id = nodeId then none else some (.cond c)
/-- Children map-and-filter of removeFilterRecursive. -/
def removeChildren : List FilterNode → String → List FilterNode
  | [], _ => []
  | ch :: rest, nodeId =>
    match removeFilterRecursive ch nodeId with
    | some c => c :: removeChildren rest nodeId
    | none => removeChildren rest nodeId
end

mutual
/-- Translation of normalizeNode of FilterStateService: children are
normalized first, null results dropped; a group with no surviving child
becomes null, with one surviving child becomes that child. -/
def normalizeNode : FilterNode → Option FilterNode
  | .cond c => some (.cond c)
  | .group gid rel children =>
    match normalizeChildren children with
    | [] => none
    | [c] => some c
    | a :: b :: rest => some (.group gid rel (a :: b :: rest))
/-- Children map-and-filter of normalizeNode. -/
def normalizeChildren : List FilterNode → List FilterNode
  | [] => []
  | ch :: rest =>
    match normalizeNode ch with
    | some c => c :: normalizeChildren rest
    | none => normalizeChildren rest
end

/-- Lifts normalizeNode to the optional root, matching the null check at the
top of normalizeNode in the source. -/
def normalizeNodeOpt : Option FilterNode → Option FilterNode
  | none => none
  | some n => normalizeNode n

/-- Translation of removeFilter of FilterStateService: no root is a no-op;
a root whose id matches empties the tree under a fresh tree id; otherwise the
root passes through removeFilterRecursive and then normalizeNode, keeping the
tree id. -/
def removeFilter (t : FilterTree) (nodeId freshId : String) : FilterTree :=
  match t.root with
  | none => t
  | some r =>
    if r.nodeId = nodeId then { root := none, id := freshId }
    else { root := normalizeNodeOpt (removeFilterRecursive r nodeId), id := t.id }

/-- Translation of isNegatedFilter of FilterStateService. -/
def isNegatedFilter (f : FilterCondition) : Bool :=
  f.operator == "is_not" || f.operator == "does_not_exist" || f.operator == "is_not_one_of"

/-- Leaf text of the tree preview: field and value, each replaced by a dash
when falsy, joined by a colon (the filterText of generatePreviewRecursive). -/
def leafFilterText (c : FilterCondition) : String :=
  orDefault c.field "-" ++ ": " ++ valueToString (orValue c.value (.vStr "-"))

mutual
/-- Translation of generatePreviewRecursive of FilterStateService. A leaf
renders its filter text with a NOT prefix when negated; a group joins its
child renderings with its relation, wraps a child that is a group of a
different relation in parentheses, and wraps itself in parentheses when the
ambient parent relation exists and differs. -/
def generatePreviewRecursive : FilterNode → Option BoolRel → String
  | .cond c, _ =>
    if isNegatedFilter c then "NOT " ++ leafFilterText c else leafFilterText c
  | .group _ rel children, parentOp =>
    let joined := joinPieces (previewChildren children rel) (" " ++ rel.str ++ " ")
    match parentOp with
    | some p => if p ≠ rel then "(" ++ joined ++ ")" else joined
    | none => joined
/-- Children renderings of generatePreviewRecursive, parenthesising child
groups whose relation differs from the parent relation. -/
def previewChildren : List FilterNode → BoolRel → List String
  | [], _ => []
  | ch :: rest, rel =>
    let cp := generatePreviewRecursive ch (some rel)
    (match ch with
     | .group _ crel _ => if crel ≠ rel then "(" ++ cp ++ ")" else cp
     | .cond _ => cp) :: previewChildren rest rel
end

/-- Translation of generatePreview of FilterStateService: the empty string for
an empty tree, otherwise the recursive preview of the root with no ambient
relation. -/
def generatePreview (t : FilterTree) : String :=
  match t.root with
  | none => ""
  | some r => generatePreviewRecursive r none

/-- Translation of the isKeyword test used across the sources: the field path
ends in the keyword suffix. -/
def isKeywordField (field : String) : Bool :=
  strEndsWith field ".keyword"

/-- Translation of the isNumeric helpers of FilterStateService and of the flat
compiler: null, undefined and the empty string are not numeric; numbers are;
strings are tested against the numeric pattern after trimming. -/
def isNumericValue : Value → Bool
  | .vNull => false
  | .vUndef => false
  | .vNum _ => true
  | .vStr s => if s = "" then false else numericChars (trimStr s).data
  | .vArr _ => false

/-- Translation of the convertValue helpers of FilterStateService and of the
flat compiler: keyword fields are never converted; numeric strings are parsed
to numbers; everything else passes through. Both source files define this
helper with identical bodies. -/
def convertValue (isKeyword : Bool) (v : Value) : Value :=
  if isKeyword then v
  else if isNumericValue v then
    match v with
    | .vStr s => .vNum (parseNumeric (trimStr s))
    | other => other
  else v

/-- Array coercion for the multi-value operators, shared by all three
compilers: arrays pass through, strings split on commas with trimmed pieces,
any other scalar becomes a one-element array. -/
def toValueList : Value → List Value
  | .vArr elems => elems
  | .vStr s => (splitChar ',' s).map (fun p => .vStr (trimStr p))
  | v => [v]

/-- Translation of buildSingleFilterQuery of FilterStateService. Conditions
missing field or operator compile to null; the operator dispatch follows the
source switch. This tree-side builder tests only the keyword suffix and
numeric values, it has no date-field test. -/
def buildSingleFilterQuery (f : FilterCondition) : Option Doc :=
  if f.field = "" ∨ f.operator = "" then none
  else
    let isKeyword := isKeywordField f.field
    if f.operator = "is" then
      if isKeyword || isNumericValue f.value then
        some (.term f.field (convertValue isKeyword f.value))
      else some (.matchQ f.field f.value)
    else if f.operator = "is_not" then
      if isKeyword || isNumericValue f.value then
        some (.boolMustNot [.term f.field (convertValue isKeyword f.value)])
      else some (.boolMustNot [.matchQ f.field f.value])
    else if f.operator = "is_one_of" then
      some (.terms f.field (toValueList f.value))
    else if f.operator = "is_not_one_of" then
      some (.boolMustNot [.terms f.field (toValueList f.value)])
    else if f.operator = "exists" then
      some (.existsQ f.field)
    else if f.operator = "does_not_exist" then
      some (.boolMustNot [.existsQ f.field])
    else if f.operator = "range" then
      let b1 := if truthyV f.minValue then
          objInsert [] (orDefault f.minOperator "gt") (convertValue isKeyword f.minValue)
        else []
      let b2 := if truthyV f.maxValue then
          objInsert b1 (orDefault f.maxOperator "lt") (convertValue isKeyword f.maxValue)
        else b1
      if b2.isEmpty then none else some (.rangeQ f.field b2)
    else if f.operator = "prefix" then
      if truthyV f.value then
        if isKeyword then some (.prefixQ f.field f.value)
        else some (.wildcardQ f.field (.vStr (valueToString f.value ++ "*")) true)
      else none
    else if f.operator = "wildcard" then
      if truthyV f.value then some (.wildcardQ f.field f.value true) else none
    else if f.operator = "query_string" then
      if truthyV f.value then some (.queryStringQ f.field f.value) else none
    else none

mutual
/-- Translation of generateQueryDSLRecursive of FilterStateService. A leaf
compiles through buildSingleFilterQuery (possibly to null); a group compiles
its children, drops null and match_all results, yields match_all with no
survivor, the sole survivor unwrapped, and otherwise a bool with should and
minimum_should_match 1 for OR or must for AND. -/
def generateQueryDSLRecursive : FilterNode → Option Doc
  | .cond c => buildSingleFilterQuery c
  | .group _ rel children =>
    match compileChildren children with
    | [] => some .matchAll
    | [q] => some q
    | a :: b :: rest =>
      if rel = .OR then some (.boolShould (a :: b :: rest) 1)
      else some (.boolMust (a :: b :: rest))
/-- Child compilation of generateQueryDSLRecursive, dropping null results and
empty queries. -/
def compileChildren : List FilterNode → List Doc
  | [] => []
  | ch :: rest =>
    match generateQueryDSLRecursive ch with
    | some q => if isEmptyQuery q then compileChildren rest else q :: compileChildren rest
    | none => compileChildren rest
end

/-- Translation of generateQueryDSL of FilterStateService: an empty tree
yields the bare match_all clause, with no enclosing query key; otherwise the
root compiles recursively (possibly to null for a single invalid condition). -/
def generateQueryDSL (t : FilterTree) : Option Doc :=
  match t.root with
  | none => some .matchAll
  | some r => generateQueryDSLRecursive r

mutual
/-- Verification predicate: every group in the node has at least two
children, recursively. -/
def groupsOk : FilterNode → Bool
  | .cond _ => true
  | .group _ _ children => decide (2 ≤ children.length) && groupsOkL children
/-- List form of groupsOk. -/
def groupsOkL : List FilterNode → Bool
  | [] => true
  | ch :: rest => groupsOk ch && groupsOkL rest
end

/-- groupsOk of an optional root; an empty root is vacuously fine. -/
def rootGroupsOk : Option FilterNode → Bool
  | none => true
  | some n => groupsOk n

mutual
/-- Verification predicate: some node in the tree (condition or group)
carries the given id. -/
def containsNodeId : FilterNode → String → Bool
  | .cond c, nid => c.id == nid
  | .group gid _ children, nid => gid == nid || containsNodeIdL children nid
/-- List form of containsNodeId. -/
def containsNodeIdL : List FilterNode → String → Bool
  | [], _ => false
  | ch :: rest, nid => containsNodeId ch nid || containsNodeIdL rest nid
end

mutual
/-- Verification predicate: no condition leaf of the node carries the given
id (groups may carry it). -/
def noCondWithId : FilterNode → String → Bool
  | .cond c, nid => c.id != nid
  | .group _ _ children, nid => noCondWithIdL children nid
/-- List form of noCondWithId. -/
def noCondWithIdL : List FilterNode → String → Bool
  | [], _ => true
  | ch :: rest, nid => noCondWithId ch nid && noCondWithIdL rest nid
end

/-- noCondWithId lifted to an optional root: an empty root carries no
condition at all. -/
def rootNoCondWithId : Option FilterNode → String → Bool
  | none, _ => true
  | some n, nid => noCondWithId n nid

/-- Translation of normalizeOperator of KibanaFilterBarComponent: alias
spellings map to the canonical operator, unknown spellings pass through. -/
def normalizeOperator (op : String) : String :=
  if op = "is" then "is"
  else if op = "isNot" then "is_not"
  else if op = "is_not" then "is_not"
  else if op = "terms" then "is_one_of"
  else if op = "is_one_of" then "is_one_of"
  else if op = "notTerms" then "is_not_one_of"
  else if op = "is_not_one_of" then "is_not_one_of"
  else if op = "exists" then "exists"
  else if op = "notExists" then "does_not_exist"
  else if op = "does_not_exist" then "does_not_exist"
  else if op = "range" then "range"
  else if op = "prefix" then "prefix"
  else if op = "wildcard" then "wildcard"
  else if op = "query_string" then "query_string"
  else if op = "queryString" then "query_string"
  else op

/-- Translation of the isDateField helper of the flat compiler: the field is
the timestamp field or its lowercase form contains date or time. -/
def isDateField (field : String) : Bool :=
  field == "@timestamp" || strIncludes (lowerStr field) "date" || strIncludes (lowerStr field) "time"

/-- One filter row of the flat representation: the value object of the
reactive form group in KibanaFilterBarComponent, and likewise the filter
objects the backend buildElasticsearchQuery receives. -/
structure Row where
  field : String
  operator : String
  value : Value
  logic : String
  minOperator : String
  minValue : Value
  maxOperator : String
  maxValue : Value

/-- Translation of the per-row clause construction in generateQueryDSL of
KibanaFilterBarComponent: rows missing field or operator are skipped (null);
the switch dispatches on the normalized operator; the is and is_not cases
use a term clause for keyword fields, date fields, or numeric values. -/
def componentBuildQuery (r : Row) : Option Doc :=
  if r.field = "" ∨ r.operator = "" then none
  else
    let isKeyword := isKeywordField r.field
    let nop := normalizeOperator r.operator
    if nop = "is" then
      if isKeyword || isDateField r.field || isNumericValue r.value then
        some (.term r.field (convertValue isKeyword r.value))
      else some (.matchQ r.field r.value)
    else if nop = "is_not" then
      if isKeyword || isDateField r.field || isNumericValue r.value then
        some (.boolMustNot [.term r.field (convertValue isKeyword r.value)])
      else some (.boolMustNot [.matchQ r.field r.value])
    else if nop = "is_one_of" then
      some (.terms r.field (toValueList r.value))
    else if nop = "is_not_one_of" then
      some (.boolMustNot [.terms r.field (toValueList r.value)])
    else if nop = "exists" then
      some (.existsQ r.field)
    else if nop = "does_not_exist" then
      some (.boolMustNot [.existsQ r.field])
    else if nop = "range" then
      let b1 := if truthyV r.minValue then
          objInsert [] (orDefault r.minOperator "gt") (convertValue isKeyword r.minValue)
        else []
      let b2 := if truthyV r.maxValue then
          objInsert b1 (orDefault r.maxOperator "lt") (convertValue isKeyword r.maxValue)
        else b1
      if b2.isEmpty then none else some (.rangeQ r.field b2)
    else if nop = "prefix" then
      if truthyV r.value then
        if isKeyword then some (.prefixQ r.field r.value)
        else some (.wildcardQ r.field (.vStr (valueToString r.value ++ "*")) true)
      else none
    else if nop = "wildcard" then
      if truthyV r.value then some (.wildcardQ r.field r.value true) else none
    else if nop = "query_string" then
      if truthyV r.value then some (.queryStringQ r.field r.value) else none
    else none

/-- One combination step of the right-to-left fold in generateQueryDSL of
KibanaFilterBarComponent: with nesting required the accumulator is wrapped
whole; otherwise an existing should or must list of the accumulator is
extended in place, and any other accumulator shape is wrapped. -/
def extendFold (currentOp : String) (currentQuery acc : Doc) (needsNesting : Bool) : Doc :=
  if currentOp == "OR" then
    if needsNesting then .boolShould [currentQuery, acc] 1
    else
      match acc with
      | .boolShould cs msm => .boolShould (currentQuery :: cs) msm
      | other => .boolShould [currentQuery, other] 1
  else
    if needsNesting then .boolMust [currentQuery, acc]
    else
      match acc with
      | .boolMust cs => .boolMust (currentQuery :: cs)
      | other => .boolMust [currentQuery, other]

/-- Right-to-left fold of the mixed-relation branch of generateQueryDSL of
KibanaFilterBarComponent, written as left recursion over the clause list with
its relation tags: the accumulator for the tail is combined with the current
clause under the tail head relation, and nesting is required exactly when the
tail continues with a relation different from the one being applied. -/
def foldDSL : Doc → List (String × Doc) → Doc
  | c, [] => c
  | c, (r, c2) :: rest =>
    let acc := foldDSL c2 rest
    let needsNesting := match rest with
      | [] => false
      | (r2, _) :: _ => r2 != r
    extendFold r c acc needsNesting

/-- Translation of generateQueryDSL of KibanaFilterBarComponent over the flat
row list. Rows compile to clauses paired with their logic tags; one clause is
wrapped directly; identical relations throughout yield one flat must or
should group; mixed relations run the right-to-left fold. With no surviving
clause the source reads the query property of an undefined array element and
throws a TypeError, modelled here as none. -/
def generateQueryDSLFlat (rows : List Row) : Option Doc :=
  let qs := rows.filterMap (fun r => (componentBuildQuery r).map (fun q => (q, r.logic)))
  match qs with
  | [] => none
  | [q] => some (.queryW q.1)
  | q0 :: q1 :: rest =>
    let ops := (q1 :: rest).map (fun p => orDefault p.2 "AND")
    match ops with
    | [] => none
    | o :: os =>
      if os.all (fun x => x == o) then
        some (.queryW (if o == "OR" then .boolShould ((q0 :: q1 :: rest).map Prod.fst) 1
                       else .boolMust ((q0 :: q1 :: rest).map Prod.fst)))
      else
        some (.queryW (foldDSL q0.1 ((q1 :: rest).map (fun p => (orDefault p.2 "AND", p.1)))))

/-- One entry of the filterExpressions list built by updatePreview of
KibanaFilterBarComponent. -/
structure FilterExpr where
  text : String
  logic : String
  hasNot : Bool
deriving DecidableEq

/-- Translation of getRangeOperatorLabel of KibanaFilterBarComponent. -/
def rangeOperatorLabel (op : String) : String :=
  if op = "gt" then "Greater Than"
  else if op = "gte" then "Greater Than/Equal To"
  else if op = "lt" then "Less Than"
  else if op = "lte" then "Less Than/Equal To"
  else op

/-- Filter text and NOT flag of one row in updatePreview of
KibanaFilterBarComponent (the filterText and hasNot variables of the source):
the hasNot flag is set only for does_not_exist and is_not. -/
def exprTextAndNot (r : Row) : String × Bool :=
  let nop := normalizeOperator r.operator
  if nop = "exists" then (r.field ++ ": exists", false)
  else if nop = "does_not_exist" then (r.field ++ ": exists", true)
  else if nop = "range" then
    let parts :=
      (if truthyV r.minValue then
        [rangeOperatorLabel (orDefault r.minOperator "gt") ++ " " ++ valueToString r.minValue]
       else []) ++
      (if truthyV r.maxValue then
        [rangeOperatorLabel (orDefault r.maxOperator "lt") ++ " " ++ valueToString r.maxValue]
       else [])
    (if parts.isEmpty then r.field ++ ": -"
     else r.field ++ ": " ++ joinPieces parts " and ", false)
  else if nop = "prefix" then
    (r.field ++ ": prefix \"" ++ valueToString (orValue r.value (.vStr "-")) ++ "\"", false)
  else if nop = "wildcard" then
    (r.field ++ ": wildcard \"" ++ valueToString (orValue r.value (.vStr "-")) ++ "\"", false)
  else if nop = "query_string" then
    (r.field ++ ": query_string \"" ++ valueToString (orValue r.value (.vStr "-")) ++ "\"", false)
  else if nop = "is_not" then
    (r.field ++ ": " ++ valueToString (orValue r.value (.vStr "-")), true)
  else if truthyV r.value then
    (r.field ++ ": " ++ valueToString r.value, false)
  else (r.field ++ ": -", false)

/-- Translation of the per-row expression construction in updatePreview of
KibanaFilterBarComponent: rows missing field or operator are skipped; the
logic tag is kept for every row after the first. -/
def buildExprRow (idx : Nat) (r : Row) : Option FilterExpr :=
  if r.field = "" ∨ r.operator = "" then none
  else
    some { text := (exprTextAndNot r).1
           logic := if 0 < idx then orDefault r.logic "AND" else ""
           hasNot := (exprTextAndNot r).2 }

/-- Expression list of updatePreview: rows enumerated with their original
index, invalid rows skipped. -/
def buildExprs (rows : List Row) : List FilterExpr :=
  rows.enum.filterMap (fun p => buildExprRow p.1 p.2)

/-- NOT-prefixed rendering of one expression, as repeated throughout
buildKibanaPreview. -/
def renderNot (e : FilterExpr) : String :=
  if e.hasNot then "NOT " ++ e.text else e.text

/-- Right-to-left fold of the mixed-relation branch of buildKibanaPreview,
written as left recursion: the rendered tail is parenthesised exactly when
the tail continues with a relation different from the one being applied. -/
def foldPreview : String → List (String × String) → String
  | t, [] => t
  | t, (r, t2) :: rest =>
    let acc := foldPreview t2 rest
    let needsParens := match rest with
      | [] => false
      | (r2, _) :: _ => r2 != r
    t ++ " " ++ r ++ " " ++ (if needsParens then "(" ++ acc ++ ")" else acc)

/-- Translation of buildKibanaPreview of KibanaFilterBarComponent: empty list
renders empty, a single expression renders alone, identical relations render
as a flat space-joined sequence, mixed relations run the right-to-left fold. -/
def buildKibanaPreview (filters : List FilterExpr) : String :=
  match filters with
  | [] => ""
  | [f] => renderNot f
  | f0 :: f1 :: rest =>
    let ops := (f1 :: rest).map (fun e => orDefault e.logic "AND")
    match ops with
    | [] => ""
    | o :: os =>
      if os.all (fun x => x == o) then
        joinPieces (renderNot f0 ::
          (List.zip (o :: os) (f1 :: rest)).map (fun p => p.1 ++ " " ++ renderNot p.2)) " "
      else
        foldPreview (renderNot f0)
          ((List.zip (o :: os) (f1 :: rest)).map (fun p => (p.1, renderNot p.2)))

/-- Preview text of updatePreview of KibanaFilterBarComponent over the flat
row list: the kibana-style preview of the surviving expressions (the source
returns the empty string early for no rows or no expressions, which
buildKibanaPreview also yields). -/
def updatePreviewText (rows : List Row) : String :=
  buildKibanaPreview (buildExprs rows)

/-- Translation of the per-filter clause construction in
buildElasticsearchQuery of elasticFilterService.js, including the alias
operator spellings. The backend performs no numeric coercion and has no
date-field test. The clause shapes of the external elastic-builder library
are modelled as the shapes of the clause table in the specification, with
must_not holding a one-element list. -/
def backendBuildFilterClause (r : Row) : Option Doc :=
  if r.field = "" ∨ r.operator = "" then none
  else
    let isKeyword := isKeywordField r.field
    if r.operator = "is" ∨ r.operator = "IS" then
      some (if isKeyword then .term r.field r.value else .matchQ r.field r.value)
    else if r.operator = "is_not" ∨ r.operator = "isNot" ∨ r.operator = "IS_NOT" then
      some (.boolMustNot [if isKeyword then .term r.field r.value else .matchQ r.field r.value])
    else if r.operator = "is_one_of" ∨ r.operator = "terms" ∨ r.operator = "TERMS" then
      some (.terms r.field (toValueList r.value))
    else if r.operator = "is_not_one_of" ∨ r.operator = "notTerms" ∨ r.operator = "NOT_TERMS" then
      some (.boolMustNot [.terms r.field (toValueList r.value)])
    else if r.operator = "exists" ∨ r.operator = "EXISTS" then
      some (.existsQ r.field)
    else if r.operator = "does_not_exist" ∨ r.operator = "notExists" ∨ r.operator = "NOT_EXISTS" then
      some (.boolMustNot [.existsQ r.field])
    else if r.operator = "range" ∨ r.operator = "RANGE" then
      let b1 := if truthyV r.minValue then objInsert [] (orDefault r.minOperator "gt") r.minValue
        else []
      let b2 := if truthyV r.maxValue then objInsert b1 (orDefault r.maxOperator "lt") r.maxValue
        else b1
      if b2.isEmpty then none else some (.rangeQ r.field b2)
    else if r.operator = "prefix" ∨ r.operator = "PREFIX" then
      if truthyV r.value then
        some (if isKeyword then .prefixQ r.field r.value
              else .wildcardQ r.field (.vStr (valueToString r.value ++ "*")) true)
      else none
    else if r.operator = "wildcard" ∨ r.operator = "WILDCARD" then
      if truthyV r.value then some (.wildcardQ r.field r.value true) else none
    else if r.operator = "query_string" ∨ r.operator = "queryString" ∨ r.operator = "QUERY_STRING" then
      if truthyV r.value then some (.queryStringQ r.field r.value) else none
    else none

/-- Closing of a pending group in buildElasticsearchQuery: a one-element
group joins directly, several elements wrap in a should with
minimum_should_match 1. -/
def closeGroup (cg : List Doc) : Doc :=
  match cg with
  | [x] => x
  | xs => .boolShould xs 1

/-- Grouping loop of buildElasticsearchQuery over the enumerated rows,
threading the closed groups and the currently open group: the row at index
zero and OR rows extend the open group; an AND row closes the open group and
opens a new one, and is dropped when the open group is empty, exactly as in
the source where the branch is guarded by the group length. -/
def backendAccum : List (Nat × Row) → List Doc → List Doc → List Doc × List Doc
  | [], queryGroups, currentGroup => (queryGroups, currentGroup)
  | (i, r) :: rest, queryGroups, currentGroup =>
    match backendBuildFilterClause r with
    | none => backendAccum rest queryGroups currentGroup
    | some q =>
      if i = 0 then backendAccum rest queryGroups (currentGroup ++ [q])
      else
        let logic := orDefault r.logic "AND"
        if logic = "OR" ∨ logic = "or" then backendAccum rest queryGroups (currentGroup ++ [q])
        else if currentGroup.isEmpty then backendAccum rest queryGroups currentGroup
        else backendAccum rest (queryGroups ++ [closeGroup currentGroup]) [q]

/-- Translation of buildElasticsearchQuery of elasticFilterService.js: a
missing or empty filter array yields the match_all document under the query
key; otherwise the surviving clauses are grouped (runs of OR into should
groups, AND boundaries between groups), the groups are combined under a bool
must, and an empty bool is emitted when nothing survives. -/
def buildElasticsearchQuery : Option (List Row) → Doc
  | none => .queryW .matchAll
  | some [] => .queryW .matchAll
  | some (r0 :: rs) =>
    let p := backendAccum ((r0 :: rs).enum) [] []
    let gs := if p.2.isEmpty then p.1 else p.1 ++ [closeGroup p.2]
    .queryW (if gs.isEmpty then .boolEmpty else .boolMust gs)

/-- Flat row A of the mixed-relation example in the specification: operator
is on the keyword field host.keyword with value web01, first row (empty
logic tag). -/
def rowA : Row :=
  { field := "host.keyword", operator := "is", value := .vStr "web01", logic := ""
    minOperator := "gt", minValue := .vStr "", maxOperator := "lt", maxValue := .vStr "" }

/-- Flat row B of the mixed-relation example: operator is_not on the text
field status with value 500, connected by AND. -/
def rowB : Row :=
  { field := "status", operator := "is_not", value := .vStr "500", logic := "AND"
    minOperator := "gt", minValue := .vStr "", maxOperator := "lt", maxValue := .vStr "" }

/-- Flat row C of the mixed-relation example: operator is_one_of on the
keyword field verb.keyword with the comma-separated value GET,POST,
connected by OR. -/
def rowC : Row :=
  { field := "verb.keyword", operator := "is_one_of", value := .vStr "GET,POST", logic := "OR"
    minOperator := "gt", minValue := .vStr "", maxOperator := "lt", maxValue := .vStr "" }

/-- A flat row with field and operator left empty, as an untouched form row:
every compiler skips it. -/
def blankRow : Row :=
  { field := "", operator := "", value := .vStr "", logic := ""
    minOperator := "gt", minValue := .vStr "", maxOperator := "lt", maxValue := .vStr "" }

/-- Concrete valid keyword condition with id a. -/
def condA : FilterCondition :=
  { id := "a", field := "a.keyword", operator := "is", value := .vStr "1"
    minOperator := "gt", minValue := .vStr "", maxOperator := "lt", maxValue := .vStr "" }

/-- Concrete valid keyword condition with id b. -/
def condB : FilterCondition :=
  { id := "b", field := "b.keyword", operator := "is", value := .vStr "2"
    minOperator := "gt", minValue := .vStr "", maxOperator := "lt", maxValue := .vStr "" }

/-- Concrete valid keyword condition with id c. -/
def condC : FilterCondition :=
  { id := "c", field := "c.keyword", operator := "is", value := .vStr "3"
    minOperator := "gt", minValue := .vStr "", maxOperator := "lt", maxValue := .vStr "" }

/-- Concrete tree whose root AND group contains a leaf and a child AND group
carrying the same relation as its parent. -/
def t2root : FilterNode :=
  .group "g" .AND [.cond condA, .group "h2" .AND [.cond condB, .cond condC]]

/-- Concrete tree root whose AND group g contains the leaf a and the OR
group h with leaves b and c. -/
def t5root : FilterNode :=
  .group "g" .AND [.cond condA, .group "h" .OR [.cond condB, .cond condC]]

/-- Tree around t5root. -/
def t5 : FilterTree := { root := some t5root, id := "t5" }

/-- Condition on the timestamp field with operator is and a non-numeric
value, for the date-field claim. -/
def condTs : FilterCondition :=
  { id := "x", field := "@timestamp", operator := "is", value := .vStr "yesterday"
    minOperator := "gt", minValue := .vStr "", maxOperator := "lt", maxValue := .vStr "" }

/-- Flat row on the timestamp field with operator is and a non-numeric
value. -/
def rowTs : Row :=
  { field := "@timestamp", operator := "is", value := .vStr "yesterday", logic := ""
    minOperator := "gt", minValue := .vStr "", maxOperator := "lt", maxValue := .vStr "" }

/-- Flat row with operator is_not_one_of, for the NOT-prefix claim. -/
def rowN1 : Row :=
  { field := "tags.keyword", operator := "is_not_one_of", value := .vStr "a,b", logic := ""
    minOperator := "gt", minValue := .vStr "", maxOperator := "lt", maxValue := .vStr "" }

/-- Range condition whose lower bound is the number zero (falsy) and whose
upper bound is the numeric string 100. -/
def cond10 : FilterCondition :=
  { id := "r1", field := "bytes", operator := "range", value := .vStr ""
    minOperator := "gte", minValue := .vNum 0, maxOperator := "lt", maxValue := .vStr "100" }

/-- Condition input used when exercising addFilter. -/
def inputB : CondInput :=
  { field := "b.keyword", operator := "is", value := .vStr "2"
    minOperator := "gt", minValue := .vStr "", maxOperator := "lt", maxValue := .vStr "" }

/-- List form of the group-size invariant: groupsOkL holds exactly when
groupsOk holds for every member. -/
theorem groupsOkL_iff (l : List FilterNode) :
    groupsOkL l = true ↔ ∀ x ∈ l, groupsOk x = true := by
  induction l with
  | nil => simp [groupsOkL]
  | cons a rest ih => simp [groupsOkL, ih, Bool.and_eq_true]

/-- Every member of a normalized children list comes from normalizing a
member of the input list; soundness and stability transfer pointwise. -/
theorem normalizeChildren_spec (l : List FilterNode)
    (hP : ∀ ch ∈ l, ∀ m, normalizeNode ch = some m →
      groupsOk m = true ∧ normalizeNode m = some m) :
    ∀ x ∈ normalizeChildren l, groupsOk x = true ∧ normalizeNode x = some x := by
  induction l with
  | nil => simp [normalizeChildren]
  | cons ch rest ih =>
    intro x hx
    simp only [normalizeChildren] at hx
    cases h : normalizeNode ch with
    | some c =>
      rw [h] at hx
      rcases List.mem_cons.mp hx with rfl | hx2
      · exact hP ch (List.mem_cons_self _ _) x h
      · exact ih (fun a ha => hP a (List.mem_cons_of_mem _ ha)) x hx2
    | none =>
      rw [h] at hx
      exact ih (fun a ha => hP a (List.mem_cons_of_mem _ ha)) x hx

/-- A list of nodes that are each fixed by normalizeNode is fixed by
normalizeChildren. -/
theorem normalizeChildren_fixed (l : List FilterNode)
    (h : ∀ x ∈ l, normalizeNode x = some x) : normalizeChildren l = l := by
  induction l with
  | nil => simp [normalizeChildren]
  | cons a rest ih =>
    simp only [normalizeChildren, h a (List.mem_cons_self _ _)]
    rw [ih (fun x hx => h x (List.mem_cons_of_mem _ hx))]

/-- Soundness of normalizeNode: a normalized node satisfies the group-size
invariant and is a fixed point of normalizeNode. -/
theorem normalizeNode_sound : ∀ n : FilterNode, ∀ m, normalizeNode n = some m →
    groupsOk m = true ∧ normalizeNode m = some m := by
  intro n
  induction n using FilterNode.inductionOn with
  | h1 c =>
    intro m hm
    simp only [normalizeNode, Option.some.injEq] at hm
    subst hm
    exact ⟨rfl, rfl⟩
  | h2 gid rel children ih =>
    intro m hm
    have hmem := normalizeChildren_spec children (fun ch hch => ih ch hch)
    simp only [normalizeNode] at hm
    cases hcl : normalizeChildren children with
    | nil => rw [hcl] at hm; exact absurd hm (by simp)
    | cons a tail =>
      cases tail with
      | nil =>
        rw [hcl] at hm
        simp only [Option.some.injEq] at hm
        subst hm
        exact hmem a (by rw [hcl]; exact List.mem_cons_self _ _)
      | cons b rest =>
        rw [hcl] at hm
        simp only [Option.some.injEq] at hm
        subst hm
        constructor
        · simp only [groupsOk, Bool.and_eq_true, decide_eq_true_eq]
          constructor
          · simp
          · rw [groupsOkL_iff]
            intro x hx
            exact (hmem x (by rw [hcl]; exact hx)).1
        · simp only [normalizeNode]
          rw [normalizeChildren_fixed _ (fun x hx => (hmem x (by rw [hcl]; exact hx)).2)]

/-- Applying normalizeNode to an already normalized optional node changes
nothing. -/
theorem normalizeNodeOpt_normalizeNode (n : FilterNode) :
    normalizeNodeOpt (normalizeNode n) = normalizeNode n := by
  cases h : normalizeNode n with
  | none => rfl
  | some m => simpa [normalizeNodeOpt] using (normalizeNode_sound n m h).2

/-- The result of normalizeNodeOpt always satisfies the group-size
invariant. -/
theorem rootGroupsOk_normalizeNodeOpt (x : Option FilterNode) :
    rootGroupsOk (normalizeNodeOpt x) = true := by
  cases x with
  | none => rfl
  | some n =>
    show rootGroupsOk (normalizeNode n) = true
    cases h : normalizeNode n with
    | none => rfl
    | some m => simpa [rootGroupsOk] using (normalizeNode_sound n m h).1

/-- C9: normalization is idempotent and closed. Applied to any optional root,
normalizeNode composed with itself equals one application, and every
BooleanGroup surviving normalization has at least two children (empty groups
are removed, single-child groups are replaced by their child). -/
theorem C9_normalize_closure :
    ∀ r : Option FilterNode,
      normalizeNodeOpt (normalizeNodeOpt r) = normalizeNodeOpt r ∧
      rootGroupsOk (normalizeNodeOpt r) = true := by
  intro r
  refine ⟨?_, rootGroupsOk_normalizeNodeOpt r⟩
  cases r with
  | none => rfl
  | some n => exact normalizeNodeOpt_normalizeNode n

/-- When no condition in the list carries the id, removing it degenerates to
normalizing, pointwise over the children list. -/
theorem removeChildren_eq_normalizeChildren (nid : String) (l : List FilterNode)
    (hP : ∀ ch ∈ l, noCondWithId ch nid = true →
      removeFilterRecursive ch nid = normalizeNode ch)
    (h : noCondWithIdL l nid = true) :
    removeChildren l nid = normalizeChildren l := by
  induction l with
  | nil => rfl
  | cons a rest ih =>
    simp only [noCondWithIdL, Bool.and_eq_true] at h
    simp only [removeChildren, normalizeChildren]
    rw [hP a (List.mem_cons_self _ _) h.1]
    cases normalizeNode a with
    | some c => rw [ih (fun x hx => hP x (List.mem_cons_of_mem _ hx)) h.2]
    | none => exact ih (fun x hx => hP x (List.mem_cons_of_mem _ hx)) h.2

/-- When no condition in the node carries the id, removeFilterRecursive is
exactly normalizeNode: the id is never deleted, only degenerate groups
collapse. In particular a non-root BooleanNode id is never removed. -/
theorem removeFilterRecursive_eq_normalizeNode :
    ∀ (n : FilterNode) (nid : String), noCondWithId n nid = true →
      removeFilterRecursive n nid = normalizeNode n := by
  intro n
  induction n using FilterNode.inductionOn with
  | h1 c =>
    intro nid h
    simp only [noCondWithId, bne_iff_ne, ne_eq] at h
    simp [removeFilterRecursive, normalizeNode, h]
  | h2 gid rel children ih =>
    intro nid h
    simp only [noCondWithId] at h
    simp only [removeFilterRecursive, normalizeNode]
    rw [removeChildren_eq_normalizeChildren nid children (fun ch hch => ih ch hch nid) h]

/-- List form of the no-condition-with-id predicate: it holds exactly when it
holds for every member. -/
theorem noCondWithIdL_iff (nid : String) (l : List FilterNode) :
    noCondWithIdL l nid = true ↔ ∀ x ∈ l, noCondWithId x nid = true := by
  induction l with
  | nil => simp [noCondWithIdL]
  | cons a rest ih => simp [noCondWithIdL, ih, Bool.and_eq_true]

/-- Every member of a removed children list is the (non-null) removal result
of a member of the input list. -/
theorem removeChildren_from (nid : String) (l : List FilterNode) :
    ∀ x ∈ removeChildren l nid, ∃ ch ∈ l, removeFilterRecursive ch nid = some x := by
  induction l with
  | nil => simp [removeChildren]
  | cons a rest ih =>
    intro x hx
    simp only [removeChildren] at hx
    cases h : removeFilterRecursive a nid with
    | some c =>
      rw [h] at hx
      rcases List.mem_cons.mp hx with rfl | hx2
      · exact ⟨a, List.mem_cons_self _ _, h⟩
      · obtain ⟨ch, hch, hc⟩ := ih x hx2
        exact ⟨ch, List.mem_cons_of_mem _ hch, hc⟩
    | none =>
      rw [h] at hx
      obtain ⟨ch, hch, hc⟩ := ih x hx
      exact ⟨ch, List.mem_cons_of_mem _ hch, hc⟩

/-- Every member of a normalized children list is the (non-null)
normalization of a member of the input list. -/
theorem normalizeChildren_from (l : List FilterNode) :
    ∀ x ∈ normalizeChildren l, ∃ ch ∈ l, normalizeNode ch = some x := by
  induction l with
  | nil => simp [normalizeChildren]
  | cons a rest ih =>
    intro x hx
    simp only [normalizeChildren] at hx
    cases h : normalizeNode a with
    | some c =>
      rw [h] at hx
      rcases List.mem_cons.mp hx with rfl | hx2
      · exact ⟨a, List.mem_cons_self _ _, h⟩
      · obtain ⟨ch, hch, hc⟩ := ih x hx2
        exact ⟨ch, List.mem_cons_of_mem _ hch, hc⟩
    | none =>
      rw [h] at hx
      obtain ⟨ch, hch, hc⟩ := ih x hx
      exact ⟨ch, List.mem_cons_of_mem _ hch, hc⟩

/-- Deletion soundness of removeFilterRecursive: whatever survives the
removal of an id carries no condition leaf with that id. -/
theorem removeFilterRecursive_noCond :
    ∀ (n : FilterNode) (nid : String) (m : FilterNode),
      removeFilterRecursive n nid = some m → noCondWithId m nid = true := by
  intro n
  induction n using FilterNode.inductionOn with
  | h1 c =>
    intro nid m hm
    simp only [removeFilterRecursive] at hm
    by_cases h : c.id = nid
    · rw [if_pos h] at hm
      exact absurd hm (by simp)
    · rw [if_neg h] at hm
      simp only [Option.some.injEq] at hm
      subst hm
      simp [noCondWithId, h]
  | h2 gid rel children ih =>
    intro nid m hm
    have hmem : ∀ x ∈ removeChildren children nid, noCondWithId x nid = true := by
      intro x hx
      obtain ⟨ch, hch, hc⟩ := removeChildren_from nid children x hx
      exact ih ch hch nid x hc
    simp only [removeFilterRecursive] at hm
    cases hcl : removeChildren children nid with
    | nil => rw [hcl] at hm; exact absurd hm (by simp)
    | cons a tail =>
      cases tail with
      | nil =>
        rw [hcl] at hm
        simp only [Option.some.injEq] at hm
        subst hm
        exact hmem a (by rw [hcl]; exact List.mem_cons_self _ _)
      | cons b rest =>
        rw [hcl] at hm
        simp only [Option.some.injEq] at hm
        subst hm
        simp only [noCondWithId]
        rw [noCondWithIdL_iff]
        intro x hx
        exact hmem x (by rw [hcl]; exact hx)

/-- normalizeNode introduces no condition leaf: a node free of conditions
with a given id normalizes to a node free of them as well. -/
theorem normalizeNode_noCond :
    ∀ (n : FilterNode) (nid : String) (m : FilterNode),
      noCondWithId n nid = true → normalizeNode n = some m → noCondWithId m nid = true := by
  intro n
  induction n using FilterNode.inductionOn with
  | h1 c =>
    intro nid m h hm
    simp only [normalizeNode, Option.some.injEq] at hm
    subst hm
    exact h
  | h2 gid rel children ih =>
    intro nid m h hm
    simp only [noCondWithId] at h
    have hall := (noCondWithIdL_iff nid children).mp h
    have hmem : ∀ x ∈ normalizeChildren children, noCondWithId x nid = true := by
      intro x hx
      obtain ⟨ch, hch, hc⟩ := normalizeChildren_from children x hx
      exact ih ch hch nid x (hall ch hch) hc
    simp only [normalizeNode] at hm
    cases hcl : normalizeChildren children with
    | nil => rw [hcl] at hm; exact absurd hm (by simp)
    | cons a tail =>
      cases tail with
      | nil =>
        rw [hcl] at hm
        simp only [Option.some.injEq] at hm
        subst hm
        exact hmem a (by rw [hcl]; exact List.mem_cons_self _ _)
      | cons b rest =>
        rw [hcl] at hm
        simp only [Option.some.injEq] at hm
        subst hm
        simp only [noCondWithId]
        rw [noCondWithIdL_iff]
        intro x hx
        exact hmem x (by rw [hcl]; exact hx)

/-- C5 (amended): removeFilter deletes the root whenever the root id matches
(the tree becomes empty); after any removeFilter call every remaining
BooleanGroup has at least two children; every FilterCondition carrying the
removed id is deleted (none survives in the resulting tree, root or not); and
for a non-root id carried by no condition leaf (in particular the id of a
non-root BooleanGroup), the tree is merely normalized, the group is not
deleted. -/
theorem C5_removeFilter_amended :
    ∀ (t : FilterTree) (nodeId freshId : String),
      (∀ r, t.root = some r → r.nodeId = nodeId →
        removeFilter t nodeId freshId = { root := none, id := freshId }) ∧
      rootGroupsOk (removeFilter t nodeId freshId).root = true ∧
      rootNoCondWithId (removeFilter t nodeId freshId).root nodeId = true ∧
      (∀ r, t.root = some r → r.nodeId ≠ nodeId → noCondWithId r nodeId = true →
        (removeFilter t nodeId freshId).root = normalizeNode r) := by
  intro t nodeId freshId
  refine ⟨?_, ?_, ?_, ?_⟩
  · intro r hr hid
    simp [removeFilter, hr, hid]
  · cases hr : t.root with
    | none =>
      have : removeFilter t nodeId freshId = t := by simp [removeFilter, hr]
      rw [this, hr]
      rfl
    | some r =>
      by_cases hid : r.nodeId = nodeId
      · simp [removeFilter, hr, hid, rootGroupsOk]
      · simp only [removeFilter, hr, hid, if_neg]
        exact rootGroupsOk_normalizeNodeOpt _
  · cases hr : t.root with
    | none =>
      have : removeFilter t nodeId freshId = t := by simp [removeFilter, hr]
      rw [this, hr]
      rfl
    | some r =>
      by_cases hid : r.nodeId = nodeId
      · simp [removeFilter, hr, hid, rootNoCondWithId]
      · simp only [removeFilter, hr, hid, if_neg]
        cases hrm : removeFilterRecursive r nodeId with
        | none => simp [normalizeNodeOpt, rootNoCondWithId]
        | some x =>
          have hx := removeFilterRecursive_noCond r nodeId x hrm
          simp only [normalizeNodeOpt]
          cases hnm : normalizeNode x with
          | none => simp [rootNoCondWithId]
          | some m =>
            simpa [rootNoCondWithId] using normalizeNode_noCond x nodeId m hx hnm
  · intro r hr hid hnc
    simp only [removeFilter, hr, hid, if_neg]
    rw [removeFilterRecursive_eq_normalizeNode r nodeId hnc]
    exact normalizeNodeOpt_normalizeNode r

/-- Witness for the amended removeFilter theorem at the concrete tree t5:
removing the root id empties the tree; removing the id of the non-root OR
group h leaves the (normalized) tree with h still present; and removing the
id of the non-root condition b deletes that leaf, after which the
single-child group h collapses, so the result is the group g over the two
remaining conditions and contains no condition with id b. -/
theorem C5_removeFilter_amended_witness :
    removeFilter t5 "g" "f9" = { root := none, id := "f9" } ∧
    (removeFilter t5 "h" "f9").root = normalizeNode t5root ∧
    rootNoCondWithId (removeFilter t5 "b" "f9").root "b" = true ∧
    (removeFilter t5 "b" "f9").root = some (.group "g" .AND [.cond condA, .cond condC]) :=
  ⟨(C5_removeFilter_amended t5 "g" "f9").1 t5root rfl (by decide),
   (C5_removeFilter_amended t5 "h" "f9").2.2.2 t5root rfl (by decide) (by decide),
   (C5_removeFilter_amended t5 "b" "f9").2.2.1,
   rfl⟩

/-- C5 (counterexample): in the tree t5 the non-root BooleanGroup h survives
removeFilter of its own id untouched: the resulting root is the original
root, which still contains a node with id h. The claim that removeFilter
deletes every node id, groups included, fails here. -/
theorem C5_counterexample :
    (removeFilter t5 "h" "fresh").root = some t5root ∧
    containsNodeId t5root "h" = true :=
  ⟨rfl, rfl⟩

/-- C1 (counterexample): on the three-row list A, B, C with relation tags
empty, AND, OR, the flat preview renderer does not produce the claimed string
without a NOT prefix, because the is_not row B renders NOT-prefixed. -/
theorem C1_counterexample :
    updatePreviewText [rowA, rowB, rowC] ≠
      "host.keyword: web01 AND (status: 500 OR verb.keyword: GET,POST)" := by decide

/-- C1 (amended): on the three-row list A, B, C with relation tags empty,
AND, OR, the flat compiler produces exactly the claimed document, with the
status value coerced to the number 500, and the flat preview renderer
produces exactly the right-associated string in which the is_not row carries
its NOT prefix. -/
theorem C1_amended_holds :
    generateQueryDSLFlat [rowA, rowB, rowC] =
      some (.queryW (.boolMust [.term "host.keyword" (.vStr "web01"),
        .boolShould [.boolMustNot [.term "status" (.vNum 500)],
          .terms "verb.keyword" [.vStr "GET", .vStr "POST"]] 1])) ∧
    updatePreviewText [rowA, rowB, rowC] =
      "host.keyword: web01 AND (NOT status: 500 OR verb.keyword: GET,POST)" :=
  ⟨rfl, by decide⟩

/-- C2 (counterexample): in the tree t2root, whose child group h2 carries the
same AND relation as its parent g, the compiler nests a bool boundary at the
child-group position while the preview contains no parenthesis at all, so a
child group is parenthesized by the preview renderer if and only if the
compiler nests a bool there fails. -/
theorem C2_counterexample :
    generateQueryDSLRecursive t2root =
      some (.boolMust [.term "a.keyword" (.vStr "1"),
        .boolMust [.term "b.keyword" (.vStr "2"), .term "c.keyword" (.vStr "3")]]) ∧
    generatePreviewRecursive t2root none = "a.keyword: 1 AND b.keyword: 2 AND c.keyword: 3" ∧
    (generatePreviewRecursive t2root none).data.contains '(' = false :=
  ⟨rfl, by decide, by decide⟩

/-- C2 (amended): preview parenthesization of a child group is decided solely
by a relation differing from the parent relation, while the compiler nests a
bool at every group with at least two surviving clauses. Concretely, for any
group: with at least two compiled children the compiled document is a bool
clause, and rendering the group under an ambient relation equal to its own
adds no parentheses (it renders exactly as with no ambient relation). -/
theorem C2_grouping_amended :
    ∀ (gid : String) (rel : BoolRel) (children : List FilterNode),
      (2 ≤ (compileChildren children).length →
        isBoolDoc ((generateQueryDSLRecursive (.group gid rel children)).getD .matchAll) = true) ∧
      generatePreviewRecursive (.group gid rel children) (some rel) =
        generatePreviewRecursive (.group gid rel children) none := by
  intro gid rel children
  constructor
  · intro hlen
    simp only [generateQueryDSLRecursive]
    rcases h : compileChildren children with _ | ⟨a, _ | ⟨b, rest⟩⟩
    · rw [h] at hlen; simp at hlen
    · rw [h] at hlen; simp at hlen
    · cases rel <;> simp [isBoolDoc]
  · simp [generatePreviewRecursive]

/-- Witness for the amended grouping theorem: the two valid conditions b and
c compile to two clauses, and the surrounding same-relation group compiles to
a bool document. -/
theorem C2_grouping_amended_witness :
    2 ≤ (compileChildren [FilterNode.cond condB, FilterNode.cond condC]).length ∧
    isBoolDoc ((generateQueryDSLRecursive
      (.group "w" .AND [.cond condB, .cond condC])).getD .matchAll) = true :=
  ⟨by decide,
   (C2_grouping_amended "w" .AND [.cond condB, .cond condC]).1 (by decide)⟩

/-- C3 (counterexample): the tree compiler maps the empty tree to the bare
match_all clause, which is not the document wrapped under a top-level query
key that the claim requires. -/
theorem C3_counterexample :
    generateQueryDSL { root := none, id := "t0" } = some Doc.matchAll ∧
    generateQueryDSL { root := none, id := "t0" } ≠ some (Doc.queryW Doc.matchAll) :=
  ⟨rfl, fun h => nomatch h⟩

/-- C3 (amended): the backend flat compiler maps a missing or empty filter
list to the match_all clause wrapped under the top-level query key, while the
tree compiler maps the empty tree to the bare match_all clause without the
wrapper. -/
theorem C3_amended_holds :
    ∀ treeId : String,
      generateQueryDSL { root := none, id := treeId } = some Doc.matchAll ∧
      buildElasticsearchQuery none = Doc.queryW Doc.matchAll ∧
      buildElasticsearchQuery (some []) = Doc.queryW Doc.matchAll :=
  fun _ => ⟨rfl, rfl, rfl⟩

/-- C4 (code bug evaluation): the flat compiler of the filter-bar component
crashes when every row is skipped. On the empty row list, and on a list of
rows missing field and operator, the fold reads the query property of an
undefined array element and throws; the embedding returns none exactly
there. -/
theorem C4_flat_compiler_crash :
    generateQueryDSLFlat [] = none ∧ generateQueryDSLFlat [blankRow, blankRow] = none :=
  ⟨rfl, rfl⟩

/-- C6: case analysis of addFilter. On an empty tree the (defaulted) new
condition becomes the root under a fresh tree id; on a non-empty tree the
root passes through addFilterRecursive with a fresh condition. At the target
node: a FilterCondition is replaced by a new group of the requested relation
with the target and the new condition as its two children; a BooleanGroup
with the same relation appends the new condition to its children with no
extra nesting; a BooleanGroup with a different relation is wrapped whole,
unchanged, together with the new condition, in a new outer group carrying the
requested relation. Away from the target id, groups recurse into their
children. -/
theorem C6_addFilter_cases :
    ∀ (treeId parentId : String) (rel grel : BoolRel) (f : CondInput)
      (newCondId newGroupId newTreeId : String)
      (c : FilterCondition) (gid : String) (children : List FilterNode) (nf : FilterCondition),
      (addFilter { root := none, id := treeId } parentId rel f newCondId newGroupId newTreeId =
        { root := some (.cond (mkNewCondition newCondId f)), id := newTreeId }) ∧
      (∀ r : FilterNode,
        addFilter { root := some r, id := treeId } parentId rel f newCondId newGroupId newTreeId =
          { root := some (addFilterRecursive r parentId rel (mkNewCondition newCondId f) newGroupId)
            id := treeId }) ∧
      (addFilterRecursive (.cond c) c.id rel nf newGroupId =
        .group newGroupId rel [.cond c, .cond nf]) ∧
      (addFilterRecursive (.group gid rel children) gid rel nf newGroupId =
        .group gid rel (children ++ [.cond nf])) ∧
      (grel ≠ rel →
        addFilterRecursive (.group gid grel children) gid rel nf newGroupId =
          .group newGroupId rel [.group gid grel children, .cond nf]) ∧
      (gid ≠ parentId →
        addFilterRecursive (.group gid grel children) parentId rel nf newGroupId =
          .group gid grel (addChildren children parentId rel nf newGroupId)) := by
  intro treeId parentId rel grel f newCondId newGroupId newTreeId c gid children nf
  refine ⟨rfl, fun r => rfl, ?_, ?_, ?_, ?_⟩
  · simp [addFilterRecursive]
  · simp [addFilterRecursive]
  · intro h
    simp [addFilterRecursive, h]
  · intro h
    simp [addFilterRecursive, h]

/-- Witness for the addFilter case analysis at concrete inputs: a
different-relation target group is wrapped, and a non-matching group id
recurses into the children. -/
theorem C6_addFilter_cases_witness :
    addFilterRecursive (.group "g" .AND [.cond condA]) "g" .OR condB "ng" =
      .group "ng" .OR [.group "g" .AND [.cond condA], .cond condB] ∧
    addFilterRecursive (.group "g" .AND [.cond condA]) "zzz" .OR condB "ng" =
      .group "g" .AND (addChildren [.cond condA] "zzz" .OR condB "ng") :=
  ⟨(C6_addFilter_cases "t" "g" .OR .AND inputB "nc" "ng" "nt"
      condA "g" [.cond condA] condB).2.2.2.2.1 (by decide),
   (C6_addFilter_cases "t" "zzz" .OR .AND inputB "nc" "ng" "nt"
      condA "g" [.cond condA] condB).2.2.2.2.2 (by decide)⟩

/-- C7 (counterexample): on the timestamp field with operator is and the
non-numeric value yesterday, the tree compiler emits a match clause, not a
term clause: its clause builder tests only the keyword suffix and numeric
values and has no date-field rule. -/
theorem C7_counterexample :
    buildSingleFilterQuery condTs = some (.matchQ "@timestamp" (.vStr "yesterday")) := rfl

/-- C7 (amended): the flat compiler treats date fields as exact-like, an is
condition on a date field compiles to a term clause and an is_not condition
to that term clause under must_not, regardless of the keyword suffix; the
tree compiler has no date-field test, and on a non-keyword field with a
non-numeric value an is condition compiles to a match clause. -/
theorem C7_date_amended :
    ∀ (r : Row) (c : FilterCondition),
      (r.field ≠ "" → isDateField r.field = true →
        (normalizeOperator r.operator = "is" →
          componentBuildQuery r =
            some (.term r.field (convertValue (isKeywordField r.field) r.value))) ∧
        (normalizeOperator r.operator = "is_not" →
          componentBuildQuery r =
            some (.boolMustNot [.term r.field (convertValue (isKeywordField r.field) r.value)]))) ∧
      (c.field ≠ "" → c.operator = "is" → isKeywordField c.field = false →
        isNumericValue c.value = false →
        buildSingleFilterQuery c = some (.matchQ c.field c.value)) := by
  intro r c
  constructor
  · intro hf hd
    constructor
    · intro hop
      have hopne : ¬ r.operator = "" := by
        intro he
        rw [he] at hop
        exact absurd hop (by decide)
      simp [componentBuildQuery, hop, hd, hf, hopne]
    · intro hop
      have hopne : ¬ r.operator = "" := by
        intro he
        rw [he] at hop
        exact absurd hop (by decide)
      simp [componentBuildQuery, hop, hd, hf, hopne]
  · intro hcf hco hkw hnum
    have hopne : ¬ c.operator = "" := by rw [hco]; decide
    simp [buildSingleFilterQuery, hco, hcf, hopne, hkw, hnum]

/-- Witness for the amended date-field theorem at the timestamp row: the flat
compiler emits a term clause for operator is on the date field. -/
theorem C7_date_amended_witness :
    isDateField "@timestamp" = true ∧
    componentBuildQuery rowTs =
      some (.term rowTs.field (convertValue (isKeywordField rowTs.field) rowTs.value)) :=
  ⟨by decide, ((C7_date_amended rowTs condTs).1 (by decide) (by decide)).1 (by decide)⟩

/-- The NOT flag computed by the flat preview expression builder is set
exactly for the normalized operators is_not and does_not_exist; in
particular it is never set for is_not_one_of. -/
theorem exprTextAndNot_hasNot (r : Row) :
    (exprTextAndNot r).2 = (normalizeOperator r.operator == "is_not"
      || normalizeOperator r.operator == "does_not_exist") := by
  simp only [exprTextAndNot]
  generalize normalizeOperator r.operator = nop
  split_ifs <;> simp_all [beq_iff_eq]

/-- C8 (amended): in the tree preview a leaf is NOT-prefixed exactly when its
operator is is_not, does_not_exist or is_not_one_of; in the flat preview the
NOT flag of a surviving row is set exactly when its normalized operator is
is_not or does_not_exist, so is_not_one_of rows are not NOT-prefixed there. -/
theorem C8_not_amended :
    ∀ (c : FilterCondition) (po : Option BoolRel) (i : Nat) (r : Row) (e : FilterExpr),
      (generatePreviewRecursive (.cond c) po =
        (if c.operator = "is_not" ∨ c.operator = "does_not_exist" ∨ c.operator = "is_not_one_of"
         then "NOT " ++ leafFilterText c else leafFilterText c)) ∧
      (buildExprRow i r = some e →
        e.hasNot = (normalizeOperator r.operator == "is_not"
          || normalizeOperator r.operator == "does_not_exist")) := by
  intro c po i r e
  constructor
  · simp only [generatePreviewRecursive, isNegatedFilter, Bool.or_eq_true, beq_iff_eq]
    by_cases h : c.operator = "is_not" ∨ c.operator = "does_not_exist" ∨ c.operator = "is_not_one_of"
    · rw [if_pos (or_assoc.mpr h), if_pos h]
    · rw [if_neg (fun hh => h (or_assoc.mp hh)), if_neg h]
  · intro he
    have hg : ¬ (r.field = "" ∨ r.operator = "") := by
      intro hgg
      simp [buildExprRow, hgg] at he
    simp only [buildExprRow] at he
    rw [if_neg hg] at he
    simp only [Option.some.injEq] at he
    subst he
    exact exprTextAndNot_hasNot r

/-- Witness for the amended NOT-prefix theorem: the surviving expression of
the is_not_one_of row has its NOT flag off. -/
theorem C8_not_amended_witness :
    buildExprRow 0 rowN1 = some { text := "tags.keyword: a,b", logic := "", hasNot := false } ∧
    FilterExpr.hasNot { text := "tags.keyword: a,b", logic := "", hasNot := false } =
      (normalizeOperator rowN1.operator == "is_not"
        || normalizeOperator rowN1.operator == "does_not_exist") :=
  ⟨by decide,
   (C8_not_amended condA none 0 rowN1
     { text := "tags.keyword: a,b", logic := "", hasNot := false }).2 (by decide)⟩

/-- C8 (counterexample): the flat preview of the single is_not_one_of row
renders without a NOT prefix, although the claim requires is_not_one_of
leaves to be NOT-prefixed in both preview variants. -/
theorem C8_counterexample :
    updatePreviewText [rowN1] = "tags.keyword: a,b" ∧
    ("NOT ".data.isPrefixOf (updatePreviewText [rowN1]).data) = false :=
  ⟨by decide, by decide⟩

/-- C10: in all three compilers a range bound whose value is falsy (the
number zero, the empty string, null or undefined) is treated as absent. When
both bounds are falsy the condition compiles to null and is dropped; when one
bound is falsy the compiled range clause holds only the other bound. The tree
and flat compilers insert converted bound values, the backend inserts the raw
values. A legitimate numeric lower or upper bound of zero is therefore
silently discarded everywhere. -/
theorem C10_falsy_range_bounds :
    ∀ (f : FilterCondition) (r b : Row),
      (f.operator = "range" → truthyV f.minValue = false → truthyV f.maxValue = false →
        buildSingleFilterQuery f = none) ∧
      (f.field ≠ "" → f.operator = "range" → truthyV f.minValue = false →
        buildSingleFilterQuery f =
          (if truthyV f.maxValue then
            some (.rangeQ f.field [(orDefault f.maxOperator "lt",
              convertValue (isKeywordField f.field) f.maxValue)])
           else none)) ∧
      (f.field ≠ "" → f.operator = "range" → truthyV f.maxValue = false →
        buildSingleFilterQuery f =
          (if truthyV f.minValue then
            some (.rangeQ f.field [(orDefault f.minOperator "gt",
              convertValue (isKeywordField f.field) f.minValue)])
           else none)) ∧
      (normalizeOperator r.operator = "range" → truthyV r.minValue = false →
        truthyV r.maxValue = false → componentBuildQuery r = none) ∧
      (r.field ≠ "" → normalizeOperator r.operator = "range" → truthyV r.minValue = false →
        componentBuildQuery r =
          (if truthyV r.maxValue then
            some (.rangeQ r.field [(orDefault r.maxOperator "lt",
              convertValue (isKeywordField r.field) r.maxValue)])
           else none)) ∧
      (r.field ≠ "" → normalizeOperator r.operator = "range" → truthyV r.maxValue = false →
        componentBuildQuery r =
          (if truthyV r.minValue then
            some (.rangeQ r.field [(orDefault r.minOperator "gt",
              convertValue (isKeywordField r.field) r.minValue)])
           else none)) ∧
      ((b.operator = "range" ∨ b.operator = "RANGE") → truthyV b.minValue = false →
        truthyV b.maxValue = false → backendBuildFilterClause b = none) ∧
      (b.field ≠ "" → (b.operator = "range" ∨ b.operator = "RANGE") → truthyV b.minValue = false →
        backendBuildFilterClause b =
          (if truthyV b.maxValue then
            some (.rangeQ b.field [(orDefault b.maxOperator "lt", b.maxValue)])
           else none)) ∧
      (b.field ≠ "" → (b.operator = "range" ∨ b.operator = "RANGE") → truthyV b.maxValue = false →
        backendBuildFilterClause b =
          (if truthyV b.minValue then
            some (.rangeQ b.field [(orDefault b.minOperator "gt", b.minValue)])
           else none)) := by
  intro f r b
  refine ⟨?_, ?_, ?_, ?_, ?_, ?_, ?_, ?_, ?_⟩
  · intro hop hmin hmax
    by_cases hg : f.field = "" ∨ f.operator = ""
    · simp [buildSingleFilterQuery, hg]
    · simp [buildSingleFilterQuery, hg, hop, hmin, hmax]
  · intro hf hop hmin
    have hopne : ¬ f.operator = "" := by rw [hop]; decide
    cases hmax : truthyV f.maxValue <;>
      simp [buildSingleFilterQuery, hf, hopne, hop, hmin, hmax, objInsert]
  · intro hf hop hmax
    have hopne : ¬ f.operator = "" := by rw [hop]; decide
    cases hmin : truthyV f.minValue <;>
      simp [buildSingleFilterQuery, hf, hopne, hop, hmin, hmax, objInsert]
  · intro hop hmin hmax
    by_cases hg : r.field = "" ∨ r.operator = ""
    · simp [componentBuildQuery, hg]
    · simp [componentBuildQuery, hg, hop, hmin, hmax]
  · intro hf hop hmin
    have hopne : ¬ r.operator = "" := by
      intro he
      rw [he] at hop
      exact absurd hop (by decide)
    cases hmax : truthyV r.maxValue <;>
      simp [componentBuildQuery, hf, hopne, hop, hmin, hmax, objInsert]
  · intro hf hop hmax
    have hopne : ¬ r.operator = "" := by
      intro he
      rw [he] at hop
      exact absurd hop (by decide)
    cases hmin : truthyV r.minValue <;>
      simp [componentBuildQuery, hf, hopne, hop, hmin, hmax, objInsert]
  · intro hop hmin hmax
    by_cases hg : b.field = "" ∨ b.operator = ""
    · simp [backendBuildFilterClause, hg]
    · rcases hop with hop | hop <;> simp [backendBuildFilterClause, hg, hop, hmin, hmax]
  · intro hf hop hmin
    rcases hop with hop | hop <;>
      (have hopne : ¬ b.operator = "" := by rw [hop]; decide
       cases hmax : truthyV b.maxValue <;>
         simp [backendBuildFilterClause, hf, hopne, hop, hmin, hmax, objInsert])
  · intro hf hop hmax
    rcases hop with hop | hop <;>
      (have hopne : ¬ b.operator = "" := by rw [hop]; decide
       cases hmin : truthyV b.minValue <;>
         simp [backendBuildFilterClause, hf, hopne, hop, hmin, hmax, objInsert])

/-- Witness for the falsy-bound theorem at the concrete range condition whose
lower bound is the number zero: the bound is falsy and the compiled clause
keeps only the upper bound. -/
theorem C10_falsy_range_bounds_witness :
    truthyV (Value.vNum 0) = false ∧
    buildSingleFilterQuery cond10 =
      (if truthyV cond10.maxValue then
        some (.rangeQ cond10.field [(orDefault cond10.maxOperator "lt",
          convertValue (isKeywordField cond10.field) cond10.maxValue)])
       else none) :=
  ⟨by decide,
   (C10_falsy_range_bounds cond10 blankRow blankRow).2.1 (by decide) rfl (by decide)⟩
